import Mathlib

/-!
Verification development for the pookie-gaming-server REST backend
(`src/index.js`, `src/utils/sendEmail.js`).

The document store (four collections: games, users, ads, subscribers) is
modelled as an explicit state record `DB`; store-generated ObjectIds are
modelled as increasing natural numbers (`nextId`).  Route handlers are pure
functions from (request data, store state, outcomes of external
collaborators) to (new store state, HTTP status, response payload).
MongoDB's `$regex` filter with the `i` option is modelled by an executable
matcher `regexMatchI` over the fragment of PCRE syntax that the handlers can
produce: literal characters, the `.` wildcard, and the `^`/`$` anchors, with
ASCII case folding.
-/

namespace Pookie

/-- ASCII lower-casing, as performed by the case-insensitive (`i`) regex
option of the store's matcher. -/
def lcChar (c : Char) : Char :=
  if 'A' ≤ c && c ≤ 'Z' then Char.ofNat (c.toNat + 32) else c

/-- Characters that are metacharacters in the store's regex dialect.  A
pattern made only of other characters matches purely literally. -/
def plainChar (c : Char) : Bool :=
  !(c ∈ ['.', '^', '$', '*', '+', '?', '(', ')', '[', ']', '\x7b', '\x7d', '|', '\\'])

def plainStr (s : String) : Bool := s.data.all plainChar

/-- Match of one pattern character against one text character: `.` matches
anything, other characters match up to ASCII case. -/
def charMatch (p x : Char) : Bool := p = '.' || lcChar p = lcChar x

/-- Consume the pattern (each element matches exactly one character) against
a prefix of the text, returning the remaining text on success. -/
def consume : List Char → List Char → Option (List Char)
  | [], t => some t
  | _ :: _, [] => none
  | p :: ps, x :: ts => if charMatch p x then consume ps ts else none

/-- Match the pattern at the start of the text; when `endAnchor` is set the
match must also reach the end of the text. -/
def matchEnd (ps ts : List Char) (endAnchor : Bool) : Bool :=
  match consume ps ts with
  | some rest => !endAnchor || rest.isEmpty
  | none => false

/-- Try `matchEnd` at every start position of the text. -/
def searchFrom (ps : List Char) (ea : Bool) : List Char → Bool
  | [] => matchEnd ps [] ea
  | x :: ts => matchEnd ps (x :: ts) ea || searchFrom ps ea ts

/-- Strip a leading `^` anchor from a pattern. -/
def stripCaret (p : List Char) : Bool × List Char :=
  match p with
  | c :: rest => if c = '^' then (true, rest) else (false, p)
  | [] => (false, [])

/-- Strip a trailing `$` anchor from a pattern. -/
def stripDollar (p : List Char) : Bool × List Char :=
  if p.getLast? = some '$' then (true, p.dropLast) else (false, p)

/-- Case-insensitive regex match over the pattern fragment the server can
produce (literals, `.`, `^`, `$`), modelling the store's
`\x7b $regex: pattern, $options: "i" \x7d` filter on a string field. -/
def regexMatchI (pattern text : String) : Bool :=
  let s1 := stripCaret pattern.data
  let s2 := stripDollar s1.2
  if s1.1 then matchEnd s2.2 text.data s2.1
  else searchFrom s2.2 s2.1 text.data

/-- Spec-side predicate: `p` is a prefix of `t` up to ASCII case. -/
def prefixCI : List Char → List Char → Bool
  | [], _ => true
  | _ :: _, [] => false
  | c :: ps, x :: ts => lcChar c = lcChar x && prefixCI ps ts

/-- Spec-side predicate: `p` occurs in `t` as a contiguous substring, up to
ASCII case.  This is the spec's "case-insensitive substring matching". -/
def substrCI (p : List Char) : List Char → Bool
  | [] => prefixCI p []
  | x :: ts => prefixCI p (x :: ts) || substrCI p ts

/-- Spec-side predicate: the two strings are equal up to ASCII case.  This
is the spec's "case-insensitive exact matching anchored to the full
string". -/
def eqCI (a b : String) : Bool := a.data.map lcChar = b.data.map lcChar

/-- JavaScript's `String.prototype.trim` on the ASCII whitespace actually
reachable in HTTP query strings. -/
def isWs (c : Char) : Bool := c = ' ' || c = '\t' || c = '\n' || c = '\r'

def jsTrim (s : String) : String :=
  ⟨((s.data.dropWhile isWs).reverse.dropWhile isWs).reverse⟩

/-! Data model.  Optional / free-form document fields that no claim touches
are omitted; absent string fields required by validation are modelled as the
empty string, matching JavaScript falsiness of `undefined` and `""` under
the handlers' `!field` checks. -/

/-- Game document in the `gameData` collection. -/
structure Game where
  id : Nat
  title : String
  category : Option String := none
  thumbnail : Option String := none
  deriving Repr, DecidableEq

/-- User document in the `userData` collection. -/
structure User where
  id : Nat
  name : String
  email : String
  deriving Repr, DecidableEq

/-- Ad document in the `adsData` collection, as built by the `/ads` POST
handler: `image`/`link` are stored only for image ads, `content` only for
code ads. -/
structure Ad where
  id : Nat
  title : String
  type : String
  position : String
  image : Option String := none
  link : Option String := none
  content : Option String := none
  deriving Repr, DecidableEq

/-- Subscriber document in the `subscriber` collection. -/
structure Subscriber where
  id : Nat
  email : String
  deriving Repr, DecidableEq

/-- State of the document store: the four collections, in insertion order,
plus the next store-generated identifier.  ObjectIds are modelled as
naturals increasing with insertion time, so sorting by `_id` descending is
newest-first. -/
structure DB where
  games : List Game := []
  users : List User := []
  ads : List Ad := []
  subs : List Subscriber := []
  nextId : Nat := 0
  deriving Repr, DecidableEq

/-- Well-formedness of a store state: every stored identifier is below the
next fresh one (true of every state the store can reach, since ObjectIds
are generated increasing). -/
def DB.WF (db : DB) : Prop :=
  (∀ g ∈ db.games, g.id < db.nextId) ∧
  (∀ u ∈ db.users, u.id < db.nextId) ∧
  (∀ a ∈ db.ads, a.id < db.nextId) ∧
  (∀ s ∈ db.subs, s.id < db.nextId)

instance (db : DB) : Decidable db.WF := by
  unfold DB.WF; infer_instance

/-- Route parameter `:id` after the handlers' `ObjectId.isValid` guard:
either malformed (the guard fails) or a well-formed ObjectId. -/
inductive IdParam where
  | malformed
  | valid (oid : Nat)
  deriving Repr, DecidableEq

/-- Relation `a` is newer than (or as new as) `b` by store identifier;
`.sort(\x7b _id: -1 \x7d)` orders by this relation. -/
def newerFirst (a b : Game) : Prop := b.id ≤ a.id

instance : DecidableRel newerFirst := fun a b => Nat.decLe b.id a.id

instance : IsTotal Game newerFirst := ⟨fun a b => Nat.le_total b.id a.id⟩

instance : IsTrans Game newerFirst := ⟨fun _ _ _ h1 h2 => Nat.le_trans h2 h1⟩

/-- Result of `.find().sort(\x7b _id: -1 \x7d)`: the games ordered newest
first. -/
def sortNewest (l : List Game) : List Game := List.insertionSort newerFirst l

/-! Route handlers, translated one-to-one from `src/index.js`.  Each handler
returns the HTTP status it sends plus the payload the claims inspect;
handlers that write return the new store state.  Fallible external effects
(a store read throwing, the mail transport failing, a media upload failing)
are passed in as explicit outcome parameters. -/

/-- Response of a games-list route: status plus the games sent. -/
structure GamesResp where
  status : Nat
  games : List Game
  deriving Repr, DecidableEq

/-- Handler of GET `/search/games` (src/index.js:89).  It receives the
optional `title` query parameter but — as the source does — never reads it:
it returns all games, newest first. -/
def searchGames (db : DB) (titleQ : Option String) : GamesResp :=
  ⟨200, sortNewest db.games⟩

/-- Handler of GET `/search` (src/index.js:135): 400 when `title` is absent
or blank after trimming, otherwise the games whose title matches the raw
query under the store's case-insensitive `$regex` filter. -/
def searchRoute (db : DB) (title : Option String) : GamesResp :=
  match title with
  | none => ⟨400, []⟩
  | some t =>
    if t = "" || jsTrim t = "" then ⟨400, []⟩
    else ⟨200, db.games.filter (fun g => regexMatchI t g.title)⟩

/-- Handler of GET `/games/category/:category` (src/index.js:267): filters
on the category field with the interpolated anchored pattern
`^category$`, case-insensitively.  Documents without the field never
match. -/
def gamesByCategory (db : DB) (category : String) : GamesResp :=
  if category = "" then ⟨400, []⟩
  else
    ⟨200, db.games.filter (fun g =>
      match g.category with
      | some c => regexMatchI ("^" ++ category ++ "$") c
      | none => false)⟩

/-- One step of the store's `distinct` accumulation: keep the value unless
an exactly equal one was already seen. -/
def distinctStep (acc : List String) (c : String) : List String :=
  if c ∈ acc then acc else acc ++ [c]

/-- Deduplication performed by the store's `distinct`, keeping the first
occurrence of each exact value. -/
def distinctValues (l : List String) : List String :=
  l.foldl distinctStep []

/-- Handler of GET `/categories` (src/index.js:103): the distinct values of
the `category` field across all games, compared by exact string. -/
def getCategories (db : DB) : List String :=
  distinctValues (db.games.filterMap Game.category)

/-- Response of GET `/games/:id`. -/
structure GameResp where
  status : Nat
  game : Option Game
  deriving Repr, DecidableEq

/-- Handler of GET `/games/:id` (src/index.js:118): 400 on a malformed id,
404 when no document has the id, otherwise the document. -/
def getGameById (db : DB) (p : IdParam) : GameResp :=
  match p with
  | .malformed => ⟨400, none⟩
  | .valid oid =>
    match db.games.find? (fun g => g.id = oid) with
    | none => ⟨404, none⟩
    | some g => ⟨200, some g⟩

/-- Model of `src/utils/sendEmail.js`: the transport outcome for the
recipient is observed, errors are caught internally, and the call always
returns normally (it never throws into its caller).  The returned flag
records whether the transport succeeded, which the source only logs. -/
def sendEmail (transportOk : String → Bool) (recipient : String) : Bool :=
  transportOk recipient

/-- Body of POST `/games`. -/
structure GamePayload where
  title : String := ""
  category : Option String := none
  thumbnail : Option String := none
  deriving Repr, DecidableEq

/-- Result of the POST `/games` handler: new store state, status, the
`insertedId` of the response on success, and the notification attempts made
(recipient, transport outcome), in subscriber order. -/
structure PostGamesResult where
  db : DB
  status : Nat
  insertedId : Option Nat
  attempts : List (String × Bool)
  deriving Repr, DecidableEq

/-- Handler of POST `/games` (src/index.js:155): validates the title,
inserts the game, loads the subscriber list, then sends one notification
per subscriber inside a per-subscriber catch.  `insOk` is the outcome of
the insert, `subsLoadOk` of the subscriber-list read; a throw from either
lands in the handler's outer catch, which responds 500. -/
def postGames (db : DB) (g : GamePayload) (insOk subsLoadOk : Bool)
    (mailOk : String → Bool) : PostGamesResult :=
  if g.title = "" then ⟨db, 400, none, []⟩
  else if !insOk then ⟨db, 500, none, []⟩
  else
    let newGame : Game := ⟨db.nextId, g.title, g.category, g.thumbnail⟩
    let db1 : DB := { db with games := db.games ++ [newGame], nextId := db.nextId + 1 }
    if !subsLoadOk then ⟨db1, 500, none, []⟩
    else ⟨db1, 201, some newGame.id,
      db1.subs.map (fun s => (s.email, sendEmail mailOk s.email))⟩

/-- Result of a handler that may write and sends only a status. -/
structure WriteResp where
  db : DB
  status : Nat
  deriving Repr, DecidableEq

/-- Handler of POST `/subscribe` (src/index.js:207): 400 when the email is
missing, 400 when a subscriber with the email already exists, otherwise
insert and 201. -/
def subscribe (db : DB) (email : String) : WriteResp :=
  if email = "" then ⟨db, 400⟩
  else
    match db.subs.find? (fun s => s.email = email) with
    | some _ => ⟨db, 400⟩
    | none =>
      ⟨{ db with subs := db.subs ++ [⟨db.nextId, email⟩], nextId := db.nextId + 1 }, 201⟩

/-- Result of POST `/users`: new state, status, the id of the user the
response carries, and whether the "User already exists" branch was taken. -/
structure PostUsersResult where
  db : DB
  status : Nat
  userId : Option Nat
  existing : Bool
  deriving Repr, DecidableEq

/-- Handler of POST `/users` (src/index.js:379): 400 when the email is
missing; returns the existing user when one with the email is found,
otherwise inserts a new one.  Both success responses are plain 200. -/
def postUsers (db : DB) (name email : String) : PostUsersResult :=
  if email = "" then ⟨db, 400, none, false⟩
  else
    match db.users.find? (fun u => u.email = email) with
    | some u => ⟨db, 200, some u.id, true⟩
    | none =>
      ⟨{ db with users := db.users ++ [⟨db.nextId, name, email⟩], nextId := db.nextId + 1 },
        200, some db.nextId, false⟩

/-- Body of POST `/ads`; absent fields are the empty string (JavaScript
falsiness under the handler's `!field` checks). -/
structure AdPayload where
  title : String := ""
  type : String := ""
  image : String := ""
  link : String := ""
  position : String := ""
  content : String := ""
  deriving Repr, DecidableEq

/-- Result of POST `/ads`. -/
structure PostAdsResult where
  db : DB
  status : Nat
  adId : Option Nat
  deriving Repr, DecidableEq

/-- Handler of POST `/ads` (src/index.js:292): requires title, type and
position; image ads additionally require image and link, code ads require
content; then builds the document (image/link kept only for image ads,
content only for code ads) and inserts it. -/
def postAds (db : DB) (b : AdPayload) : PostAdsResult :=
  if b.title = "" || b.type = "" || b.position = "" then ⟨db, 400, none⟩
  else if b.type = "image" && (b.image = "" || b.link = "") then ⟨db, 400, none⟩
  else if b.type = "code" && b.content = "" then ⟨db, 400, none⟩
  else
    let newAd : Ad :=
      { id := db.nextId, title := b.title, type := b.type, position := b.position,
        image := if b.type = "image" then some b.image else none,
        link := if b.type = "image" then some b.link else none,
        content := if b.type = "code" then some b.content else none }
    ⟨{ db with ads := db.ads ++ [newAd], nextId := db.nextId + 1 }, 201, some newAd.id⟩

/-- Update of the first list element satisfying the predicate, as the
store's `updateOne` does. -/
def updateFirst (p : α → Bool) (f : α → α) : List α → List α
  | [] => []
  | x :: xs => if p x then f x :: xs else x :: updateFirst p f xs

/-- Partial-update document of PUT `/games/:id`: `$set` payload over the
modelled fields. -/
structure GameUpdate where
  title : Option String := none
  category : Option String := none
  thumbnail : Option String := none
  deriving Repr, DecidableEq

def applyGameUpdate (u : GameUpdate) (g : Game) : Game :=
  { g with
    title := u.title.getD g.title,
    category := match u.category with | some c => some c | none => g.category,
    thumbnail := match u.thumbnail with | some t => some t | none => g.thumbnail }

/-- Partial-update document of PUT `/ads/:id`. -/
structure AdUpdate where
  title : Option String := none
  position : Option String := none
  deriving Repr, DecidableEq

def applyAdUpdate (u : AdUpdate) (a : Ad) : Ad :=
  { a with
    title := u.title.getD a.title,
    position := u.position.getD a.position }

/-- Result of a PUT handler: new state, status, the `success` flag sent,
and the store's matched count. -/
structure PutResp where
  db : DB
  status : Nat
  success : Bool
  matchedCount : Nat
  deriving Repr, DecidableEq

/-- Handler of PUT `/games/:id` (src/index.js:406): 400 on a malformed id;
otherwise `updateOne` with `$set` and an unconditional success response —
a missing document is not distinguished. -/
def putGames (db : DB) (p : IdParam) (u : GameUpdate) : PutResp :=
  match p with
  | .malformed => ⟨db, 400, false, 0⟩
  | .valid oid =>
    let found := (db.games.find? (fun g => g.id = oid)).isSome
    ⟨{ db with games := updateFirst (fun g => g.id = oid) (applyGameUpdate u) db.games },
      200, true, if found then 1 else 0⟩

/-- Handler of PUT `/ads/:id` (src/index.js:334): same shape as the games
update. -/
def putAds (db : DB) (p : IdParam) (u : AdUpdate) : PutResp :=
  match p with
  | .malformed => ⟨db, 400, false, 0⟩
  | .valid oid =>
    let found := (db.ads.find? (fun a => a.id = oid)).isSome
    ⟨{ db with ads := updateFirst (fun a => a.id = oid) (applyAdUpdate u) db.ads },
      200, true, if found then 1 else 0⟩

/-- Result of POST `/upload`: status and the public URLs sent back. -/
structure UploadResp where
  status : Nat
  urls : List String
  deriving Repr, DecidableEq

/-- Handler of POST `/upload` (src/index.js:455).  Each batch entry is the
outcome of that file's media-host upload: `some url` on success, `none`
when the upload throws (the per-file catch then skips the URL and the loop
continues).  An empty batch is rejected with 400; otherwise the handler
responds 200 with the URLs collected in order. -/
def uploadHandler (files : List (Option String)) : UploadResp :=
  if files.isEmpty then ⟨400, []⟩
  else
    ⟨200, files.foldl (fun acc f => match f with | some url => acc ++ [url] | none => acc) []⟩

/-! Lemmas about the regex model: on patterns free of metacharacters the
store's filter degenerates to literal case-insensitive matching. -/

theorem matchEnd_false_eq (p t : List Char) :
    matchEnd p t false = (consume p t).isSome := by
  unfold matchEnd
  cases consume p t <;> simp

theorem charMatch_plain {c : Char} (hc : plainChar c = true) (x : Char) :
    charMatch c x = (lcChar c = lcChar x : Bool) := by
  have hdot : c ≠ '.' := by
    intro h; subst h; simp [plainChar] at hc
  simp [charMatch, hdot]

theorem consume_plain_isSome {p : List Char} (hp : p.all plainChar = true) :
    ∀ t, (consume p t).isSome = prefixCI p t := by
  induction p with
  | nil => intro t; simp [consume, prefixCI]
  | cons c ps ih =>
    intro t
    rw [List.all_cons, Bool.and_eq_true] at hp
    obtain ⟨hc, hps⟩ := hp
    cases t with
    | nil => simp [consume, prefixCI]
    | cons x ts =>
      simp only [consume, prefixCI, charMatch_plain hc x]
      by_cases h : lcChar c = lcChar x
      · simp [h, ih hps ts]
      · simp [h]

theorem consume_plain_full {p : List Char} (hp : p.all plainChar = true) :
    ∀ t, matchEnd p t true = (p.map lcChar = t.map lcChar : Bool) := by
  induction p with
  | nil =>
    intro t
    cases t <;> simp [matchEnd, consume]
  | cons c ps ih =>
    intro t
    rw [List.all_cons, Bool.and_eq_true] at hp
    obtain ⟨hc, hps⟩ := hp
    cases t with
    | nil => simp [matchEnd, consume]
    | cons x ts =>
      simp only [matchEnd, consume, charMatch_plain hc x]
      by_cases h : lcChar c = lcChar x
      · have := ih hps ts
        simp only [matchEnd, Bool.not_true, Bool.false_or] at this
        simp [h, this]
      · simp [h]

theorem searchFrom_plain {p : List Char} (hp : p.all plainChar = true) :
    ∀ t, searchFrom p false t = substrCI p t := by
  intro t
  induction t with
  | nil =>
    simp [searchFrom, substrCI, matchEnd_false_eq, consume_plain_isSome hp]
  | cons x ts ih =>
    simp [searchFrom, substrCI, matchEnd_false_eq, consume_plain_isSome hp, ih]

theorem plain_head_not_caret {c : Char} (hc : plainChar c = true) : c ≠ '^' := by
  intro h; subst h; simp [plainChar] at hc

theorem stripCaret_plain {p : List Char} (hp : p.all plainChar = true) :
    stripCaret p = (false, p) := by
  cases p with
  | nil => rfl
  | cons c rest =>
    rw [List.all_cons, Bool.and_eq_true] at hp
    simp [stripCaret, plain_head_not_caret hp.1]

theorem plain_getLast_not_dollar {p : List Char} (hp : p.all plainChar = true) :
    p.getLast? ≠ some '$' := by
  induction p with
  | nil => simp
  | cons c rest ih =>
    rw [List.all_cons, Bool.and_eq_true] at hp
    obtain ⟨hc, hrest⟩ := hp
    cases rest with
    | nil =>
      simp only [List.getLast?_singleton]
      intro h
      have : c = '$' := by injection h
      subst this; simp [plainChar] at hc
    | cons d ds =>
      rw [List.getLast?_cons_cons]
      exact ih hrest

theorem stripDollar_plain {p : List Char} (hp : p.all plainChar = true) :
    stripDollar p = (false, p) := by
  simp [stripDollar, plain_getLast_not_dollar hp]

/-- Refinement of the `/search` filter: on a metacharacter-free query the
`$regex`/`i` filter coincides with case-insensitive substring
containment. -/
theorem regexMatchI_plain (q t : String) (hq : plainStr q = true) :
    regexMatchI q t = substrCI q.data t.data := by
  unfold regexMatchI
  simp only [stripCaret_plain hq, stripDollar_plain hq, Bool.false_eq_true, if_false]
  exact searchFrom_plain hq t.data

/-- Refinement of the `/games/category/:category` filter: on a
metacharacter-free category the anchored `^c$` case-insensitive regex
coincides with case-insensitive full-string equality. -/
theorem regexMatchI_anchored (c t : String) (hc : plainStr c = true) :
    regexMatchI ("^" ++ c ++ "$") t = eqCI c t := by
  have hdata : ("^" ++ c ++ "$").data = '^' :: (c.data ++ ['$']) := by
    simp [String.data_append]
  unfold regexMatchI
  rw [hdata]
  have h1 : stripCaret ('^' :: (c.data ++ ['$'])) = (true, c.data ++ ['$']) := by
    simp [stripCaret]
  have h2 : stripDollar (c.data ++ ['$']) = (true, c.data) := by
    simp [stripDollar, List.getLast?_concat, List.dropLast_concat]
  simp only [h1, h2, if_true]
  rw [consume_plain_full hc t.data]
  simp [eqCI]

/-! Helper lemmas about the list operations the handlers delegate to the
store. -/

theorem sortNewest_perm (l : List Game) : List.Perm (sortNewest l) l :=
  List.perm_insertionSort newerFirst l

theorem sortNewest_sorted (l : List Game) : List.Sorted newerFirst (sortNewest l) :=
  List.sorted_insertionSort newerFirst l

theorem distinctStep_foldl_mem :
    ∀ (l acc : List String) (x : String),
      x ∈ l.foldl distinctStep acc ↔ x ∈ acc ∨ x ∈ l := by
  intro l
  induction l with
  | nil => intro acc x; simp
  | cons c cs ih =>
    intro acc x
    rw [List.foldl_cons, ih]
    unfold distinctStep
    by_cases hc : c ∈ acc
    · simp only [if_pos hc, List.mem_cons]
      constructor
      · rintro (h | h)
        · exact Or.inl h
        · exact Or.inr (Or.inr h)
      · rintro (h | h | h)
        · exact Or.inl h
        · exact Or.inl (h ▸ hc)
        · exact Or.inr h
    · simp only [if_neg hc, List.mem_append, List.mem_singleton, List.mem_cons]
      tauto

theorem distinctStep_foldl_nodup :
    ∀ (l acc : List String), acc.Nodup → (l.foldl distinctStep acc).Nodup := by
  intro l
  induction l with
  | nil => intro acc h; simpa using h
  | cons c cs ih =>
    intro acc h
    rw [List.foldl_cons]
    apply ih
    unfold distinctStep
    by_cases hc : c ∈ acc
    · simpa [if_pos hc] using h
    · rw [if_neg hc]
      refine List.Nodup.append h (List.nodup_singleton c) ?_
      intro a ha hac
      rw [List.mem_singleton] at hac
      exact hc (hac ▸ ha)

/-- Membership in the `/categories` response is exactly having some game
carry that category value. -/
theorem getCategories_mem (db : DB) (s : String) :
    s ∈ getCategories db ↔ s ∈ db.games.filterMap Game.category := by
  unfold getCategories distinctValues
  rw [distinctStep_foldl_mem]
  simp

theorem getCategories_nodup (db : DB) : (getCategories db).Nodup :=
  distinctStep_foldl_nodup _ [] List.nodup_nil

theorem upload_foldl_eq :
    ∀ (l : List (Option String)) (acc : List String),
      l.foldl (fun acc f => match f with | some url => acc ++ [url] | none => acc) acc
        = acc ++ l.filterMap id := by
  intro l
  induction l with
  | nil => intro acc; simp
  | cons f fs ih =>
    intro acc
    cases f with
    | none => simp [ih]
    | some url => simp [ih]

theorem updateFirst_noMatch (p : α → Bool) (f : α → α) :
    ∀ l : List α, (∀ x ∈ l, p x = false) → updateFirst p f l = l := by
  intro l
  induction l with
  | nil => intro _; rfl
  | cons x xs ih =>
    intro h
    unfold updateFirst
    rw [h x (List.mem_cons_self x xs)]
    simp [ih fun y hy => h y (List.mem_cons_of_mem x hy)]

/-! Claim theorems. -/

/-- Claim C2, counterexample: a GET `/search/games` request with
`title=zzz` still receives the game "Alpha", whose title does not match
the query in any sense — the handler ignores the title parameter. -/
theorem claim2_counterexample :
    (searchGames { games := [⟨0, "Alpha", none, none⟩], nextId := 1 } (some "zzz")).games
        = [⟨0, "Alpha", none, none⟩] ∧
      substrCI "zzz".data "Alpha".data = false ∧
      regexMatchI "zzz" "Alpha" = false := by
  decide

/-- Claim C2 as amended: GET `/search/games` ignores the optional title
query parameter entirely and responds 200 with all games ordered newest
first (a permutation of the collection, sorted by descending store id). -/
theorem claim2_theorem (db : DB) (q : Option String) :
    (searchGames db q).status = 200 ∧
    List.Perm (searchGames db q).games db.games ∧
    List.Sorted newerFirst (searchGames db q).games ∧
    searchGames db q = searchGames db none := by
  exact ⟨rfl, sortNewest_perm db.games, sortNewest_sorted db.games, rfl⟩

/-- Claim C8: POST `/upload` responds 400 exactly on an empty batch, and on
a non-empty batch responds 200 with precisely the URLs of the files whose
upload succeeded, in order — one file's failure only drops that file. -/
theorem claim8_theorem (files : List (Option String)) :
    ((uploadHandler files).status = 400 ↔ files = []) ∧
    (files ≠ [] →
      (uploadHandler files).status = 200 ∧
        (uploadHandler files).urls = files.filterMap id) := by
  cases files with
  | nil => simp [uploadHandler]
  | cons f fs =>
    refine ⟨?_, fun _ => ⟨rfl, ?_⟩⟩
    · simp [uploadHandler]
    · show (f :: fs).foldl _ [] = _
      rw [upload_foldl_eq]
      simp

/-- Claim C8 witness: a three-file batch whose middle upload fails is
answered with 200 and exactly the two successful URLs. -/
theorem claim8_witness :
    (uploadHandler [some "u1", none, some "u2"]).status = 200 ∧
    (uploadHandler [some "u1", none, some "u2"]).urls = ["u1", "u2"] := by
  have h := (claim8_theorem [some "u1", none, some "u2"]).2 (by decide)
  exact ⟨h.1, h.2.trans (by decide)⟩

/-- Claim C10: PUT `/games/:id` and PUT `/ads/:id` with a well-formed id
matching no stored document respond 200 with `success: true` (matched count
0, not 404) and leave the store exactly as it was. -/
theorem claim10_theorem (db : DB) (oid : Nat) (gu : GameUpdate) (au : AdUpdate)
    (hg : ∀ g ∈ db.games, g.id ≠ oid) (ha : ∀ a ∈ db.ads, a.id ≠ oid) :
    putGames db (.valid oid) gu = ⟨db, 200, true, 0⟩ ∧
    putAds db (.valid oid) au = ⟨db, 200, true, 0⟩ := by
  constructor
  · have hfind : db.games.find? (fun g => g.id = oid) = none := by
      rw [List.find?_eq_none]; intro x hx; simpa using hg x hx
    have hupd : updateFirst (fun g => g.id = oid) (applyGameUpdate gu) db.games = db.games :=
      updateFirst_noMatch _ _ _ (fun x hx => by simpa using hg x hx)
    simp [putGames, hfind, hupd]
  · have hfind : db.ads.find? (fun a => a.id = oid) = none := by
      rw [List.find?_eq_none]; intro x hx; simpa using ha x hx
    have hupd : updateFirst (fun a => a.id = oid) (applyAdUpdate au) db.ads = db.ads :=
      updateFirst_noMatch _ _ _ (fun x hx => by simpa using ha x hx)
    simp [putAds, hfind, hupd]

/-- Claim C10 witness: on a store holding one game (id 0) and one ad
(id 1), updating id 7 through either PUT route answers success and changes
nothing. -/
theorem claim10_witness :
    putGames { games := [⟨0, "G", none, none⟩],
               ads := [⟨1, "A", "image", "top", some "i", some "l", none⟩], nextId := 2 }
        (.valid 7) {}
      = ⟨{ games := [⟨0, "G", none, none⟩],
           ads := [⟨1, "A", "image", "top", some "i", some "l", none⟩], nextId := 2 },
         200, true, 0⟩ ∧
    putAds { games := [⟨0, "G", none, none⟩],
             ads := [⟨1, "A", "image", "top", some "i", some "l", none⟩], nextId := 2 }
        (.valid 7) {}
      = ⟨{ games := [⟨0, "G", none, none⟩],
           ads := [⟨1, "A", "image", "top", some "i", some "l", none⟩], nextId := 2 },
         200, true, 0⟩ :=
  claim10_theorem _ 7 {} {} (by decide) (by decide)

/-- Claim C1, counterexample: a POST `/games` for "Zed" whose insert
succeeds (the game is in the store afterwards) but whose subscriber-list
read throws is answered 500, not 201 — the post-insert notification phase
is not fully shielded from the response. -/
theorem claim1_counterexample :
    (postGames ({} : DB) ⟨"Zed", none, none⟩ true false (fun _ => true)).db.games
        = [⟨0, "Zed", none, none⟩] ∧
    (postGames ({} : DB) ⟨"Zed", none, none⟩ true false (fun _ => true)).status = 500 := by
  decide

/-- Claim C1 as amended: once the insert succeeds and the subscriber list
loads, POST `/games` responds 201, every subscriber receives exactly one
send attempt in list order, and the status, new store state and inserted id
are independent of which transport calls fail (individual send failures are
swallowed). -/
theorem claim1_theorem (db : DB) (g : GamePayload) (mailOk mailOk2 : String → Bool)
    (ht : g.title ≠ "") :
    (postGames db g true true mailOk).status = 201 ∧
    (postGames db g true true mailOk).attempts
        = db.subs.map (fun s => (s.email, sendEmail mailOk s.email)) ∧
    (postGames db g true true mailOk).attempts.map Prod.fst
        = db.subs.map Subscriber.email ∧
    (postGames db g true true mailOk2).status = (postGames db g true true mailOk).status ∧
    (postGames db g true true mailOk2).db = (postGames db g true true mailOk).db ∧
    (postGames db g true true mailOk2).insertedId
        = (postGames db g true true mailOk).insertedId := by
  refine ⟨by simp [postGames, ht], by simp [postGames, ht], ?_, ?_, ?_, ?_⟩
  · simp [postGames, ht, List.map_map]
  · simp [postGames, ht]
  · simp [postGames, ht]
  · simp [postGames, ht]

/-- Claim C1 witness: with two subscribers on file and a transport that
fails for the first of them, posting "Zed" still answers 201 and both
subscribers get exactly one attempt (the first recorded as failed). -/
theorem claim1_witness :
    (postGames { subs := [⟨0, "a@x"⟩, ⟨1, "b@x"⟩], nextId := 2 } ⟨"Zed", none, none⟩
        true true (fun e => decide (e = "b@x"))).status = 201 ∧
    (postGames { subs := [⟨0, "a@x"⟩, ⟨1, "b@x"⟩], nextId := 2 } ⟨"Zed", none, none⟩
        true true (fun e => decide (e = "b@x"))).attempts
      = [("a@x", false), ("b@x", true)] := by
  have h := claim1_theorem { subs := [⟨0, "a@x"⟩, ⟨1, "b@x"⟩], nextId := 2 }
    ⟨"Zed", none, none⟩ (fun e => decide (e = "b@x")) (fun e => decide (e = "b@x"))
    (by decide)
  exact ⟨h.1, h.2.1.trans (by decide)⟩

/-- Claim C5: posting a game with non-empty title returns 201 with the new
document's id, and fetching that id afterwards returns 200 with a document
whose title is the posted title (insert-then-fetch round trip). -/
theorem claim5_theorem (db : DB) (g : GamePayload) (mailOk : String → Bool)
    (hWF : db.WF) (ht : g.title ≠ "") :
    (postGames db g true true mailOk).status = 201 ∧
    (postGames db g true true mailOk).insertedId = some db.nextId ∧
    (getGameById (postGames db g true true mailOk).db (.valid db.nextId)).status = 200 ∧
    ((getGameById (postGames db g true true mailOk).db (.valid db.nextId)).game.map Game.title)
        = some g.title := by
  have hdb : (postGames db g true true mailOk).db
      = { db with games := db.games ++ [⟨db.nextId, g.title, g.category, g.thumbnail⟩],
                  nextId := db.nextId + 1 } := by
    simp [postGames, ht]
  have hfind : ((postGames db g true true mailOk).db).games.find?
      (fun x => x.id = db.nextId) = some ⟨db.nextId, g.title, g.category, g.thumbnail⟩ := by
    rw [hdb]
    show (db.games ++ [_]).find? _ = _
    rw [List.find?_append]
    have h1 : db.games.find? (fun x => x.id = db.nextId) = none := by
      rw [List.find?_eq_none]
      intro x hx
      have := hWF.1 x hx
      simp
      omega
    rw [h1]
    simp
  refine ⟨by simp [postGames, ht], by simp [postGames, ht], ?_, ?_⟩
  · simp [getGameById, hfind]
  · simp [getGameById, hfind]

/-- Claim C5 witness: posting "Halo" to an empty store and fetching the
returned id 0 gives back title "Halo". -/
theorem claim5_witness :
    (postGames ({} : DB) ⟨"Halo", none, none⟩ true true (fun _ => true)).status = 201 ∧
    (postGames ({} : DB) ⟨"Halo", none, none⟩ true true (fun _ => true)).insertedId = some 0 ∧
    ((getGameById (postGames ({} : DB) ⟨"Halo", none, none⟩ true true (fun _ => true)).db
        (.valid 0)).game.map Game.title) = some "Halo" := by
  have h := claim5_theorem ({} : DB) ⟨"Halo", none, none⟩ (fun _ => true)
    (by decide) (by decide)
  exact ⟨h.1, h.2.1, h.2.2.2⟩

/-- Claim C7, counterexample: a POST `/subscribe` carrying the empty email
— an email value not present in the (empty) subscriber collection — is
answered 400 and nothing is inserted, against the claim's "for an email not
yet present ... 201". -/
theorem claim7_counterexample :
    (subscribe ({} : DB) "").status = 400 ∧
    (subscribe ({} : DB) "").db = ({} : DB) ∧
    ({} : DB).subs.find? (fun s => s.email = "") = none := by
  decide

/-- Claim C7 as amended: a subscribe for an email already on file is
answered 400 with the store untouched; a subscribe for a non-empty email
not on file inserts exactly one subscriber document with that email and is
answered 201. -/
theorem claim7_theorem (db : DB) (email : String) :
    ((∃ s ∈ db.subs, s.email = email) → subscribe db email = ⟨db, 400⟩) ∧
    (email ≠ "" → (∀ s ∈ db.subs, s.email ≠ email) →
      (subscribe db email).status = 201 ∧
      (subscribe db email).db.subs = db.subs ++ [⟨db.nextId, email⟩]) := by
  constructor
  · rintro ⟨s, hs, he⟩
    by_cases hemail : email = ""
    · simp [subscribe, hemail]
    · cases hf : db.subs.find? (fun s => s.email = email) with
      | none =>
        exact absurd (by simpa using List.find?_eq_none.mp hf s hs) (by simp [he])
      | some s0 =>
        simp [subscribe, hemail, hf]
  · intro hemail hnone
    have hf : db.subs.find? (fun s => s.email = email) = none := by
      rw [List.find?_eq_none]
      intro x hx
      simpa using hnone x hx
    constructor
    · simp [subscribe, hemail, hf]
    · simp [subscribe, hemail, hf]

/-- Claim C7 witness: with "a@x" subscribed, subscribing "b@x" answers 201
and appends exactly one document for "b@x". -/
theorem claim7_witness :
    (subscribe { subs := [⟨0, "a@x"⟩], nextId := 1 } "b@x").status = 201 ∧
    (subscribe { subs := [⟨0, "a@x"⟩], nextId := 1 } "b@x").db.subs
      = [⟨0, "a@x"⟩, ⟨1, "b@x"⟩] := by
  have h := (claim7_theorem { subs := [⟨0, "a@x"⟩], nextId := 1 } "b@x").2
    (by decide) (by decide)
  exact ⟨h.1, h.2.trans (by decide)⟩

/-- Claim C3, counterexample: searching for "a.c" returns the game titled
"abc" although "a.c" is not a substring of "abc" — the query is interpreted
as a regex, so `.` acts as a wildcard, not a literal. -/
theorem claim3_counterexample :
    (searchRoute { games := [⟨0, "abc", none, none⟩], nextId := 1 } (some "a.c")).status
        = 200 ∧
    (searchRoute { games := [⟨0, "abc", none, none⟩], nextId := 1 } (some "a.c")).games
        = [⟨0, "abc", none, none⟩] ∧
    substrCI "a.c".data "abc".data = false := by
  decide

/-- Claim C3 as amended: GET `/search` answers 400 when the title parameter
is absent or blank; otherwise it filters by the query interpreted as a
case-insensitive regex, which coincides with case-insensitive substring
containment exactly for queries free of regex metacharacters. -/
theorem claim3_theorem (db : DB) (q : Option String) :
    ((q = none ∨ ∃ s, q = some s ∧ jsTrim s = "") → (searchRoute db q).status = 400) ∧
    (∀ s, q = some s → jsTrim s ≠ "" → plainStr s = true →
      (searchRoute db q).status = 200 ∧
      (searchRoute db q).games
          = db.games.filter (fun g => substrCI s.data g.title.data)) := by
  constructor
  · rintro (rfl | ⟨s, rfl, hs⟩)
    · rfl
    · simp [searchRoute, hs]
  · rintro s rfl hts hplain
    have hs0 : ¬(s = "") := by
      intro h
      exact hts (by rw [h]; rfl)
    constructor
    · simp [searchRoute, hs0, hts]
    · simp only [searchRoute, hs0, hts, if_neg, Bool.or_eq_true, decide_eq_true_eq,
        or_self, not_false_eq_true]
      show db.games.filter _ = _
      exact List.filter_congr fun g _ => regexMatchI_plain s g.title hplain

/-- Claim C3 witness: the metacharacter-free query "abc" matches exactly
the game whose title contains it up to case ("xAbCy") and not "zzz". -/
theorem claim3_witness :
    (searchRoute { games := [⟨0, "xAbCy", none, none⟩, ⟨1, "zzz", none, none⟩], nextId := 2 }
        (some "abc")).status = 200 ∧
    (searchRoute { games := [⟨0, "xAbCy", none, none⟩, ⟨1, "zzz", none, none⟩], nextId := 2 }
        (some "abc")).games = [⟨0, "xAbCy", none, none⟩] := by
  have h := (claim3_theorem
    { games := [⟨0, "xAbCy", none, none⟩, ⟨1, "zzz", none, none⟩], nextId := 2 }
    (some "abc")).2 "abc" rfl (by decide) (by decide)
  exact ⟨h.1, h.2.trans (by decide)⟩

/-- Claim C4, counterexample: GET `/games/category/a.c` returns the game
whose category is "abc", although "a.c" and "abc" are not equal up to case
— the category parameter is interpolated into a regex, so `.` is a
wildcard. -/
theorem claim4_counterexample :
    (gamesByCategory { games := [⟨0, "G", some "abc", none⟩], nextId := 1 } "a.c").games
        = [⟨0, "G", some "abc", none⟩] ∧
    eqCI "a.c" "abc" = false := by
  decide

/-- Claim C4 as amended: for a metacharacter-free category the route
returns exactly the games whose category equals it up to case, and GET
`/categories` returns the distinct category values by exact string (no
duplicates, and a value appears iff some game carries it). -/
theorem claim4_theorem (db : DB) (c : String) :
    (plainStr c = true → c ≠ "" →
      (gamesByCategory db c).status = 200 ∧
      (gamesByCategory db c).games
          = db.games.filter (fun g =>
              match g.category with
              | some s => eqCI c s
              | none => false)) ∧
    (getCategories db).Nodup ∧
    (∀ s, s ∈ getCategories db ↔ s ∈ db.games.filterMap Game.category) := by
  refine ⟨?_, getCategories_nodup db, getCategories_mem db⟩
  intro hplain hc
  constructor
  · simp [gamesByCategory, hc]
  · simp only [gamesByCategory, if_neg hc]
    apply List.filter_congr
    intro g _
    cases hg : g.category with
    | none => simp
    | some s => simp [regexMatchI_anchored c s hplain]

/-- Claim C4 witness: the spec scenario — categories "Puzzle", "puzzle",
"Action" on file; `/games/category/puzzle` returns both the "Puzzle" and
the "puzzle" games, while `/categories` lists all three values case
preserved. -/
theorem claim4_witness :
    (gamesByCategory { games := [⟨0, "G1", some "Puzzle", none⟩, ⟨1, "G2", some "puzzle", none⟩,
        ⟨2, "G3", some "Action", none⟩], nextId := 3 } "puzzle").games
      = [⟨0, "G1", some "Puzzle", none⟩, ⟨1, "G2", some "puzzle", none⟩] ∧
    getCategories { games := [⟨0, "G1", some "Puzzle", none⟩, ⟨1, "G2", some "puzzle", none⟩,
        ⟨2, "G3", some "Action", none⟩], nextId := 3 }
      = ["Puzzle", "puzzle", "Action"] := by
  have h := (claim4_theorem { games := [⟨0, "G1", some "Puzzle", none⟩,
    ⟨1, "G2", some "puzzle", none⟩, ⟨2, "G3", some "Action", none⟩], nextId := 3 }
    "puzzle").1 (by decide) (by decide)
  exact ⟨h.2.trans (by decide), by decide⟩

/-- Claim C6: two sequential POST `/users` with the same non-empty email
(starting from a store holding at most one user with it) make the second
request take the "User already exists" branch, return the same user id as
the first, insert nothing, and leave exactly one user document with that
email. -/
theorem claim6_theorem (db : DB) (n1 n2 email : String) (he : email ≠ "")
    (hdup : (db.users.filter (fun u => u.email = email)).length ≤ 1) :
    (postUsers (postUsers db n1 email).db n2 email).existing = true ∧
    (postUsers (postUsers db n1 email).db n2 email).userId
        = (postUsers db n1 email).userId ∧
    (postUsers (postUsers db n1 email).db n2 email).db.users
        = (postUsers db n1 email).db.users ∧
    ((postUsers (postUsers db n1 email).db n2 email).db.users.filter
        (fun u => u.email = email)).length = 1 := by
  cases hf : db.users.find? (fun u => u.email = email) with
  | some w =>
    have h1 : postUsers db n1 email = ⟨db, 200, some w.id, true⟩ := by
      unfold postUsers
      rw [if_neg he, hf]
    have h2 : postUsers db n2 email = ⟨db, 200, some w.id, true⟩ := by
      unfold postUsers
      rw [if_neg he, hf]
    have hcomp : postUsers (postUsers db n1 email).db n2 email
        = ⟨db, 200, some w.id, true⟩ := by
      rw [h1]; exact h2
    refine ⟨by rw [hcomp], by rw [hcomp, h1], by rw [hcomp, h1], ?_⟩
    rw [hcomp]
    show (db.users.filter (fun u => u.email = email)).length = 1
    have hmem : w ∈ db.users := List.mem_of_find?_eq_some hf
    have hw := List.find?_some hf
    have hu : w ∈ db.users.filter (fun u => u.email = email) :=
      List.mem_filter.mpr ⟨hmem, hw⟩
    have hpos : 0 < (db.users.filter (fun u => u.email = email)).length :=
      List.length_pos.mpr (List.ne_nil_of_mem hu)
    omega
  | none =>
    have h1 : postUsers db n1 email
        = ⟨{ db with
             users := db.users ++ [{ id := db.nextId, name := n1, email := email }],
             nextId := db.nextId + 1 },
           200, some db.nextId, false⟩ := by
      unfold postUsers
      rw [if_neg he, hf]
    have hf2 : (db.users ++ [({ id := db.nextId, name := n1, email := email } : User)]).find?
        (fun u => u.email = email)
        = some { id := db.nextId, name := n1, email := email } := by
      rw [List.find?_append, hf]
      simp
    have h2 : postUsers
        { db with
          users := db.users ++ [{ id := db.nextId, name := n1, email := email }],
          nextId := db.nextId + 1 } n2 email
        = ⟨{ db with
             users := db.users ++ [{ id := db.nextId, name := n1, email := email }],
             nextId := db.nextId + 1 },
           200, some db.nextId, true⟩ := by
      unfold postUsers
      dsimp only
      rw [if_neg he, hf2]
    have hcomp : postUsers (postUsers db n1 email).db n2 email
        = ⟨{ db with
             users := db.users ++ [{ id := db.nextId, name := n1, email := email }],
             nextId := db.nextId + 1 },
           200, some db.nextId, true⟩ := by
      rw [h1]; exact h2
    refine ⟨by rw [hcomp], by rw [hcomp, h1], by rw [hcomp, h1], ?_⟩
    rw [hcomp]
    show ((db.users ++ [({ id := db.nextId, name := n1, email := email } : User)]).filter
        (fun u => u.email = email)).length = 1
    have hnil : db.users.filter (fun u => u.email = email) = [] := by
      rw [List.filter_eq_nil_iff]
      intro a ha
      simpa using List.find?_eq_none.mp hf a ha
    rw [List.filter_append, hnil]
    simp

/-- Claim C6 witness: two posts of "e@x" into an empty store — the second
reports the user exists with the same id 0, and one matching document
remains. -/
theorem claim6_witness :
    (postUsers (postUsers ({} : DB) "A" "e@x").db "B" "e@x").existing = true ∧
    (postUsers (postUsers ({} : DB) "A" "e@x").db "B" "e@x").userId = some 0 ∧
    ((postUsers (postUsers ({} : DB) "A" "e@x").db "B" "e@x").db.users.filter
        (fun u => u.email = "e@x")).length = 1 := by
  have h := claim6_theorem ({} : DB) "A" "B" "e@x" (by decide) (by decide)
  exact ⟨h.1, h.2.1.trans (by decide), h.2.2.2⟩

/-- Claim C9, counterexample: an ad payload whose type is "banner" — not
"image" or "code" — is accepted with 201 and inserted, against the claim
that any other type value is rejected with 400. -/
theorem claim9_counterexample :
    (postAds ({} : DB) { title := "T", type := "banner", position := "top" }).status = 201 ∧
    (postAds ({} : DB) { title := "T", type := "banner", position := "top" }).db.ads
        = [{ id := 0, title := "T", type := "banner", position := "top" }] := by
  decide

/-- Claim C9 as amended: POST `/ads` accepts a payload iff title, type and
position are non-empty and the type-conditional requirements hold (image
ads need image and link, code ads need content); the image/code enum itself
is not enforced, and an accepted ad is inserted carrying the given type.
Rejections leave the store untouched. -/
theorem claim9_theorem (db : DB) (b : AdPayload) :
    ((postAds db b).status = 201 ↔
      b.title ≠ "" ∧ b.type ≠ "" ∧ b.position ≠ "" ∧
      (b.type = "image" → b.image ≠ "" ∧ b.link ≠ "") ∧
      (b.type = "code" → b.content ≠ "")) ∧
    ((postAds db b).status ≠ 201 → postAds db b = ⟨db, 400, none⟩) ∧
    ((postAds db b).status = 201 →
      (postAds db b).db.ads = db.ads ++
        [{ id := db.nextId, title := b.title, type := b.type, position := b.position,
           image := if b.type = "image" then some b.image else none,
           link := if b.type = "image" then some b.link else none,
           content := if b.type = "code" then some b.content else none }]) := by
  by_cases ht : b.title = ""
  · have he : postAds db b = ⟨db, 400, none⟩ := by simp [postAds, ht]
    rw [he]
    refine ⟨by simp [ht], ?_, ?_⟩
    · intro _; rfl
    · intro h; simp at h
  by_cases hty : b.type = ""
  · have he : postAds db b = ⟨db, 400, none⟩ := by simp [postAds, hty]
    rw [he]
    refine ⟨by simp [hty], ?_, ?_⟩
    · intro _; rfl
    · intro h; simp at h
  by_cases hp : b.position = ""
  · have he : postAds db b = ⟨db, 400, none⟩ := by simp [postAds, hp]
    rw [he]
    refine ⟨by simp [hp], ?_, ?_⟩
    · intro _; rfl
    · intro h; simp at h
  have hc1 : (decide (b.title = "") || decide (b.type = "") || decide (b.position = ""))
      = false := by
    simp [ht, hty, hp]
  by_cases himg : b.type = "image" ∧ (b.image = "" ∨ b.link = "")
  · have hc2 : (decide (b.type = "image") && (decide (b.image = "") || decide (b.link = "")))
        = true := by
      rcases himg with ⟨hi, h | h⟩ <;> simp [hi, h]
    have he : postAds db b = ⟨db, 400, none⟩ := by
      unfold postAds
      rw [hc1, hc2]
      simp
    rw [he]
    refine ⟨?_, ?_, ?_⟩
    · constructor
      · intro h; simp at h
      · rintro ⟨_, _, _, hreq, _⟩
        rcases himg with ⟨hi, h | h⟩
        · exact absurd h (hreq hi).1
        · exact absurd h (hreq hi).2
    · intro _; rfl
    · intro h; simp at h
  by_cases hcode : b.type = "code" ∧ b.content = ""
  · have hc2 : (decide (b.type = "image") && (decide (b.image = "") || decide (b.link = "")))
        = false := by
      have hni : b.type ≠ "image" := by rw [hcode.1]; decide
      simp [hni]
    have hc3 : (decide (b.type = "code") && decide (b.content = "")) = true := by
      simp [hcode.1, hcode.2]
    have he : postAds db b = ⟨db, 400, none⟩ := by
      unfold postAds
      rw [hc1, hc2, hc3]
      simp
    rw [he]
    refine ⟨?_, ?_, ?_⟩
    · constructor
      · intro h; simp at h
      · rintro ⟨_, _, _, _, hreq⟩
        exact absurd hcode.2 (hreq hcode.1)
    · intro _; rfl
    · intro h; simp at h
  · have himg2 : b.type = "image" → b.image ≠ "" ∧ b.link ≠ "" := fun hi =>
      ⟨fun h => himg ⟨hi, Or.inl h⟩, fun h => himg ⟨hi, Or.inr h⟩⟩
    have hcode2 : b.type = "code" → b.content ≠ "" := fun hc h => hcode ⟨hc, h⟩
    have hc2 : (decide (b.type = "image") && (decide (b.image = "") || decide (b.link = "")))
        = false := by
      by_cases hti : b.type = "image"
      · rcases himg2 hti with ⟨h4, h5⟩
        simp [hti, h4, h5]
      · simp [hti]
    have hc3 : (decide (b.type = "code") && decide (b.content = "")) = false := by
      by_cases htc : b.type = "code"
      · simp [htc, hcode2 htc]
      · simp [htc]
    have he : postAds db b
        = ⟨{ db with
             ads := db.ads ++
               [{ id := db.nextId, title := b.title, type := b.type, position := b.position,
                  image := if b.type = "image" then some b.image else none,
                  link := if b.type = "image" then some b.link else none,
                  content := if b.type = "code" then some b.content else none }],
             nextId := db.nextId + 1 },
           201, some db.nextId⟩ := by
      unfold postAds
      rw [hc1, hc2, hc3]
      simp
    rw [he]
    refine ⟨?_, ?_, ?_⟩
    · exact ⟨fun _ => ⟨ht, hty, hp, himg2, hcode2⟩, fun _ => rfl⟩
    · intro hne; exact absurd rfl hne
    · intro _; rfl

/-- Claim C9 witness: a complete image ad is accepted and stored with its
image and link; the payload satisfies the acceptance characterization. -/
theorem claim9_witness :
    (postAds ({} : DB)
        { title := "T", type := "image", image := "i.png", link := "l", position := "top" }).db.ads
      = [{ id := 0, title := "T", type := "image", position := "top",
           image := some "i.png", link := some "l", content := none }] := by
  have h := (claim9_theorem ({} : DB)
    { title := "T", type := "image", image := "i.png", link := "l", position := "top" }).2.2
    (by decide)
  exact h.trans (by decide)

end Pookie
